import Mathlib

/-!
Verification of the Buienradar radar-loop camera component
(`homeassistant/components/buienradar/camera.py`).

The component is a single-flight, TTL-cached fetcher of a remote radar
image.  We embed it in two layers:

* a sequential model (`CacheState`, `needs_refresh`, `retrieve_radar_image`,
  `get_image`) of one uncontended `async_camera_image` call, with the HTTP
  layer's behaviour supplied as an `HttpOutcome` parameter;
* a small-step cooperative-concurrency model (`CState`, `step`, `run`) of
  many tasks calling `async_camera_image` against the shared
  `asyncio.Condition`, the `_loading` flag and the cache fields, with
  suspension points of the Python coroutine mapped to step boundaries.

Times are naturals (seconds); image bodies are lists of naturals (bytes).
-/

set_option autoImplicit false

namespace Buienradar

/-- Image bodies (`bytes` in the source). -/
abbrev Bytes := List Nat

/-- The mutable cache fields plus immutable configuration of one
`BuienradarCam` instance (`__init__`, camera.py lines 71-110). -/
structure CacheState where
  /-- Source `self._delta`: seconds a cached image stays valid. -/
  delta : Nat
  /-- Source `self._radar_timeframe`: requested forecast, in minutes. -/
  radarTimeframe : Nat
  /-- Source `self._country`. -/
  country : String
  /-- Source `self._dimension`. -/
  dimension : Nat
  /-- Source `self._last_image`. -/
  lastImage : Option Bytes
  /-- Source `self._last_modified`: value of the last seen Last-Modified header. -/
  lastModified : Option String
  /-- Source `self._deadline`: deadline for image refresh. -/
  deadline : Option Nat
  deriving Repr, DecidableEq

/-- Python truthiness of `self._last_image`: falsy when `None` or `b""`. -/
def truthyImage : Option Bytes → Bool
  | none => false
  | some b => !b.isEmpty

/-- Embeds `BuienradarCam.__needs_refresh` (camera.py lines 117-121):
`if not (self._delta and self._deadline and self._last_image): return True`
then `return dt_util.utcnow() > self._deadline`.  `now` is the value of
`dt_util.utcnow()`. -/
def needs_refresh (s : CacheState) (now : Nat) : Bool :=
  if !(decide (s.delta ≠ 0) && s.deadline.isSome && truthyImage s.lastImage) then
    true
  else
    match s.deadline with
    | some d => decide (now > d)
    | none => true

/-- The forecast period count (camera.py lines 127-130):
`radarTimeframePeriods = (self._radar_timeframe // 10) + 1` followed by
`if radarTimeframePeriods % 10: radarTimeframePeriods += 1`. -/
def radarTimeframePeriods (timeframe : Nat) : Nat :=
  let p := timeframe / 10 + 1
  if p % 10 ≠ 0 then p + 1 else p

/-- The resource URL (camera.py lines 132-135). -/
def radarUrl (country : String) (dimension timeframe : Nat) : String :=
  let p := radarTimeframePeriods timeframe
  s!"https://image.buienradar.nl/2.0/image/animation/RadarMapRain{country}?width={dimension}&height={dimension}&renderBackground=True&renderBranding=False&renderText=True&History=0&forecast={p}"

/-- The request headers (camera.py lines 137-140): `If-Modified-Since` is
attached exactly when `self._last_modified` is set. -/
def requestHeaders (s : CacheState) : List (String × String) :=
  match s.lastModified with
  | some lm => [("If-Modified-Since", lm)]
  | none => []

/-- The outbound HTTP request assembled by `__retrieve_radar_image`. -/
structure FetchRequest where
  url : String
  headers : List (String × String)
  deriving Repr, DecidableEq

/-- The request `session.get(url, timeout=5, headers=headers)` is issued
with, as a function of the cache state. -/
def buildRequest (s : CacheState) : FetchRequest :=
  ⟨radarUrl s.country s.dimension s.radarTimeframe, requestHeaders s⟩

/-- Behaviour of the HTTP layer on one `session.get`:
a timeout (`asyncio.TimeoutError`) or another `aiohttp.ClientError`
before any response arrives; a response with a status code / optional
Last-Modified header / body whose body read succeeds; a response whose
headers arrive but whose `await res.read()` then raises one of the two
caught classes (`bodyError` — this read only happens on the sub-400,
non-304 path, after line 151 has already stored the Last-Modified
header); or an exception outside the `except` clause's two classes
(raised by the transport before any response processing). -/
inductive HttpOutcome where
  | timeout
  | clientError
  | status (code : Nat) (lastModifiedHdr : Option String) (body : Bytes)
  | bodyError (code : Nat) (lastModifiedHdr : Option String)
  | unexpected
  deriving Repr, DecidableEq

/-- Embeds `BuienradarCam.__retrieve_radar_image` (camera.py lines 123-159), given
the HTTP layer's behaviour.  `res.raise_for_status()` raises
`aiohttp.ClientResponseError` (a `ClientError`, hence caught) for status
codes ≥ 400; a 304 returns success without touching the cache; otherwise
line 151 stores the Last-Modified header (when present) and then line 153
reads the body.  On `bodyError` the read raises a caught exception after
that assignment: the fetch fails, but with the freshness token already
overwritten (code ≥ 400 never reaches the read — `raise_for_status`
raised first — and 304 returned before it).  The `Except` error channel
carries an exception that escapes the `try/except`. -/
def retrieve_radar_image (s : CacheState) (o : HttpOutcome) :
    Except Unit (CacheState × Bool) :=
  match o with
  | .timeout => .ok (s, false)
  | .clientError => .ok (s, false)
  | .unexpected => .error ()
  | .status code lm body =>
    if 400 ≤ code then
      .ok (s, false)
    else if code = 304 then
      .ok (s, true)
    else
      let s1 := match lm with
        | some v => { s with lastModified := some v }
        | none => s
      .ok ({ s1 with lastImage := some body }, true)
  | .bodyError code lm =>
    if 400 ≤ code then
      .ok (s, false)
    else if code = 304 then
      .ok (s, true)
    else
      let s1 := match lm with
        | some v => { s with lastModified := some v }
        | none => s
      .ok (s1, false)

instance {ε α : Type} [DecidableEq ε] [DecidableEq α] : DecidableEq (Except ε α)
  | .error a, .error b =>
      decidable_of_iff (a = b) ⟨fun h => by rw [h], fun h => by cases h; rfl⟩
  | .error _, .ok _ => isFalse (fun h => by cases h)
  | .ok _, .error _ => isFalse (fun h => by cases h)
  | .ok a, .ok b =>
      decidable_of_iff (a = b) ⟨fun h => by rw [h], fun h => by cases h; rfl⟩

/-- Observable result of one uncontended `async_camera_image` call:
the returned value (`Except.error` when an exception escaped to the
caller), the cache state afterwards, how many network fetches were issued,
the request each fetch was issued with, and whether the call engaged the
`asyncio.Condition`. -/
structure CallResult where
  result : Except Unit (Option Bytes)
  state : CacheState
  fetches : Nat
  request : Option FetchRequest
  usedCondition : Bool
  deriving Repr, DecidableEq

/-- One uncontended `BuienradarCam.async_camera_image` call
(camera.py lines 161-208), with no other task in flight.  `tCall` is
`dt_util.utcnow()` inside `__needs_refresh`; `tStart` is the `now`
recorded just before the fetch (line 197); `o` is the HTTP layer's
behaviour.  On the fast path the condition is never acquired and no fetch
is issued; otherwise the fetch runs and, when it reports success, the
deadline becomes `now + timedelta(seconds=self._delta)`. -/
def get_image (s : CacheState) (tCall tStart : Nat) (o : HttpOutcome) :
    CallResult :=
  if !(needs_refresh s tCall) then
    ⟨.ok s.lastImage, s, 0, none, false⟩
  else
    match retrieve_radar_image s o with
    | .error e => ⟨.error e, s, 1, some (buildRequest s), true⟩
    | .ok (s1, wasUpdated) =>
      let s2 := if wasUpdated then { s1 with deadline := some (tStart + s1.delta) } else s1
      ⟨.ok s2.lastImage, s2, 1, some (buildRequest s), true⟩

/-- A sequence of `get_image` calls: each entry is the call's time and the
HTTP layer's behaviour for it. -/
def run_calls (s : CacheState) (calls : List (Nat × HttpOutcome)) : CacheState :=
  calls.foldl (fun st c => (get_image st c.1 c.1 c.2).state) s

/-- Outcomes the source's `except (asyncio.TimeoutError, aiohttp.ClientError)`
clause absorbs as failures: a timeout or transport error before a
response, a status code that `raise_for_status()` rejects (≥ 400), or a
body read that raises a caught exception (which happens unless the status
was 304, in which case the method returned success before the read). -/
def isFailureOutcome : HttpOutcome → Bool
  | .timeout => true
  | .clientError => true
  | .status code _ _ => 400 ≤ code
  | .bodyError code _ => code ≠ 304
  | .unexpected => false

/-! ### Helper lemmas about the refresh predicate and single calls -/

/-- Characterization of `__needs_refresh`: true exactly when the ttl is
zero, the payload is absent or empty, or every recorded deadline is
strictly in the past (in particular when no deadline is recorded). -/
lemma needs_refresh_iff (s : CacheState) (t : Nat) :
    needs_refresh s t = true ↔
      (s.delta = 0 ∨ s.lastImage = none ∨ s.lastImage = some [] ∨
        ∀ d, s.deadline = some d → t > d) := by
  rcases s with ⟨delta, tf, co, dim, img, lm, dl⟩
  cases img with
  | none => simp [needs_refresh, truthyImage]
  | some b =>
    cases b with
    | nil => simp [needs_refresh, truthyImage]
    | cons x xs =>
      cases dl with
      | none => simp [needs_refresh, truthyImage]
      | some d =>
        by_cases hd : delta = 0 <;>
          simp [needs_refresh, truthyImage, hd]

/-- The refresh predicate is false exactly when ttl is nonzero, the payload
is present and nonempty, and the recorded deadline has not passed. -/
lemma needs_refresh_eq_false (s : CacheState) (t : Nat) :
    needs_refresh s t = false ↔
      (s.delta ≠ 0 ∧ truthyImage s.lastImage = true ∧
        ∃ d, s.deadline = some d ∧ ¬ t > d) := by
  rcases s with ⟨delta, tf, co, dim, img, lm, dl⟩
  cases img with
  | none => simp [needs_refresh, truthyImage]
  | some b =>
    cases b with
    | nil => simp [needs_refresh, truthyImage]
    | cons x xs =>
      cases dl with
      | none => simp [needs_refresh, truthyImage]
      | some d =>
        by_cases hd : delta = 0 <;>
          simp [needs_refresh, truthyImage, hd]

/-- The fast path: when no refresh is due, the call returns the cached
payload, leaves the state alone, issues no request and never touches the
condition. -/
lemma get_image_not_due (s : CacheState) (tc ts : Nat) (o : HttpOutcome)
    (h : needs_refresh s tc = false) :
    get_image s tc ts o = ⟨.ok s.lastImage, s, 0, none, false⟩ := by
  simp [get_image, h]

/-- The refresh path: when a refresh is due, exactly one fetch is issued,
with the request built from the current state, under the condition. -/
lemma get_image_due (s : CacheState) (tc ts : Nat) (o : HttpOutcome)
    (h : needs_refresh s tc = true) :
    (get_image s tc ts o).fetches = 1 ∧
    (get_image s tc ts o).request = some (buildRequest s) ∧
    (get_image s tc ts o).usedCondition = true := by
  cases hro : retrieve_radar_image s o with
  | error e => simp [get_image, h, hro]
  | ok p => obtain ⟨s1, b⟩ := p; simp [get_image, h, hro]

/-- Once a payload is stored it is never cleared by any later call. -/
lemma lastImage_ne_none_step (s : CacheState) (tc ts : Nat) (o : HttpOutcome)
    (h : s.lastImage ≠ none) :
    (get_image s tc ts o).state.lastImage ≠ none := by
  by_cases hr : needs_refresh s tc
  · cases o with
    | timeout => simpa [get_image, hr, retrieve_radar_image] using h
    | clientError => simpa [get_image, hr, retrieve_radar_image] using h
    | unexpected => simpa [get_image, hr, retrieve_radar_image] using h
    | status code lm body =>
      by_cases h4 : 400 ≤ code
      · simpa [get_image, hr, retrieve_radar_image, h4] using h
      · by_cases h3 : code = 304 <;>
          cases lm <;>
            simp [get_image, hr, retrieve_radar_image, h4, h3, h]
    | bodyError code lm =>
      by_cases h4 : 400 ≤ code
      · simpa [get_image, hr, retrieve_radar_image, h4] using h
      · by_cases h3 : code = 304 <;>
          cases lm <;>
            simp [get_image, hr, retrieve_radar_image, h4, h3, h]
  · simpa [get_image_not_due s tc ts o (by simpa using hr)] using h

/-! ### Concrete example states -/

/-- A freshly constructed camera: delta 600 s, 30-minute timeframe, no
image, no Last-Modified value, no deadline. -/
def exFresh : CacheState := ⟨600, 30, "NL", 700, none, none, none⟩

/-- State `exFresh` after one successful 200-fetch at time 0 with body `[1, 2]`
and Last-Modified `"X"`. -/
def exCached : CacheState := ⟨600, 30, "NL", 700, some [1, 2], some "X", some 600⟩

/-- A state with a cached nonempty image and an unexpired deadline but a
zero ttl. -/
def exZeroDelta : CacheState := ⟨0, 30, "NL", 700, some [1], none, some 100⟩

/-! ### C5 / C6: forecast-period mapping -/

/-- C5: for every requested forecast of `m` minutes, the forecast parameter
placed in the resource URL is `p = m / 10 + 1` when that value is evenly
divisible by 10, and `p + 1` otherwise. -/
theorem c5_period_mapping (m dim : Nat) (c : String) :
    radarTimeframePeriods m =
      (if (m / 10 + 1) % 10 = 0 then m / 10 + 1 else (m / 10 + 1) + 1) ∧
    radarUrl c dim m =
      "https://image.buienradar.nl/2.0/image/animation/RadarMapRain" ++ c ++
        "?width=" ++ toString dim ++ "&height=" ++ toString dim ++
        "&renderBackground=True&renderBranding=False&renderText=True&History=0&forecast=" ++
        toString (if (m / 10 + 1) % 10 = 0 then m / 10 + 1 else (m / 10 + 1) + 1) := by
  constructor
  · by_cases h : (m / 10 + 1) % 10 = 0 <;> simp [radarTimeframePeriods, h]
  · by_cases h : (m / 10 + 1) % 10 = 0 <;>
      simp [radarUrl, radarTimeframePeriods, h] <;>
        rw [show (toString "" : String) = "" from rfl, String.append_empty] <;> rfl

/-- C6 counterexample: a requested forecast of 10 minutes yields a period
count of 3, not 2 as claimed — `10 / 10 + 1 = 2` is then bumped because
`2 % 10 ≠ 0`. -/
theorem c6_counterexample : radarTimeframePeriods 10 = 3 ∧ radarTimeframePeriods 10 ≠ 2 := by
  decide

/-- C6 amended: 10 requested minutes yield a period count of 3 (2 bumped by
one because 2 % 10 is nonzero), and 25 minutes yield 4 (3 bumped by one
because 3 % 10 is nonzero). -/
theorem c6_period_examples_amended :
    radarTimeframePeriods 10 = 3 ∧ radarTimeframePeriods 25 = 4 := by
  decide

/-! ### C2: TTL correctness -/

/-- C2 counterexample: after a successful fetch at time 0 with ttl 600 the
deadline is 600, and the call at exactly time 600 (= T + D) issues no new
network fetch, because `__needs_refresh` compares with a strict `>` — the
claim asserts a call at T + D triggers exactly one new fetch. -/
theorem c2_counterexample :
    (get_image exFresh 0 0 (.status 200 (some "X") [1, 2])).state.deadline = some 600 ∧
    (get_image ((get_image exFresh 0 0 (.status 200 (some "X") [1, 2])).state)
        600 600 .timeout).fetches = 0 ∧
    (get_image ((get_image exFresh 0 0 (.status 200 (some "X") [1, 2])).state)
        600 600 .timeout).request = none := by
  decide

/-- C2 amended: after a fetch due at `T` succeeds with a nonempty body and
nonzero ttl `D`, the deadline is `T + D`; every call at a time `t ≤ T + D`
(strictly before or exactly at the deadline) returns the cached payload
and issues no network fetch, and every call strictly after `T + D` issues
exactly one new fetch. -/
theorem c2_ttl_amended (s : CacheState) (T code : Nat) (lm : Option String)
    (body : Bytes) (hbody : body ≠ []) (hdelta : s.delta ≠ 0)
    (hcode : code < 400) (h304 : code ≠ 304)
    (hdue : needs_refresh s T = true) :
    (get_image s T T (.status code lm body)).state.deadline = some (T + s.delta) ∧
    (get_image s T T (.status code lm body)).state.lastImage = some body ∧
    (∀ t o, t ≤ T + s.delta →
      get_image ((get_image s T T (.status code lm body)).state) t t o =
        ⟨.ok (some body), (get_image s T T (.status code lm body)).state, 0, none, false⟩) ∧
    (∀ t o, T + s.delta < t →
      (get_image ((get_image s T T (.status code lm body)).state) t t o).fetches = 1) := by
  have h4 : ¬ 400 ≤ code := Nat.not_le.mpr hcode
  have hdl : (get_image s T T (.status code lm body)).state.deadline = some (T + s.delta) := by
    cases lm <;> simp [get_image, hdue, retrieve_radar_image, h4, h304]
  have himg : (get_image s T T (.status code lm body)).state.lastImage = some body := by
    cases lm <;> simp [get_image, hdue, retrieve_radar_image, h4, h304]
  have hdelta2 : (get_image s T T (.status code lm body)).state.delta = s.delta := by
    cases lm <;> simp [get_image, hdue, retrieve_radar_image, h4, h304]
  refine ⟨hdl, himg, ?_, ?_⟩
  · intro t o ht
    have hfalse : needs_refresh ((get_image s T T (.status code lm body)).state) t = false := by
      rw [needs_refresh_eq_false]
      refine ⟨by rw [hdelta2]; exact hdelta, by rw [himg]; simpa [truthyImage] using hbody,
        T + s.delta, hdl, by omega⟩
    rw [get_image_not_due _ _ _ _ hfalse, himg]
  · intro t o ht
    have htrue : needs_refresh ((get_image s T T (.status code lm body)).state) t = true := by
      rw [needs_refresh_iff]
      refine Or.inr (Or.inr (Or.inr (fun d hd => ?_)))
      rw [hdl] at hd
      injection hd with hd'
      omega
    exact (get_image_due _ t t o htrue).1

/-- C2 amended, witnessed at the concrete fresh camera: fetch at time 0,
then a no-fetch call at 600 and a fetching call at 601. -/
theorem c2_ttl_amended_witness :
    (get_image exFresh 0 0 (.status 200 (some "X") [1, 2])).state.deadline =
        some (0 + exFresh.delta) ∧
    (get_image exFresh 0 0 (.status 200 (some "X") [1, 2])).state.lastImage = some [1, 2] ∧
    (∀ t o, t ≤ 0 + exFresh.delta →
      get_image ((get_image exFresh 0 0 (.status 200 (some "X") [1, 2])).state) t t o =
        ⟨.ok (some [1, 2]),
          (get_image exFresh 0 0 (.status 200 (some "X") [1, 2])).state, 0, none, false⟩) ∧
    (∀ t o, 0 + exFresh.delta < t →
      (get_image ((get_image exFresh 0 0 (.status 200 (some "X") [1, 2])).state) t t o).fetches
        = 1) :=
  c2_ttl_amended exFresh 0 200 (some "X") [1, 2] (by decide) (by decide) (by decide)
    (by decide) (by decide)

/-! ### C3: failure atomicity -/

/-- C3 counterexample: a fetch whose body read fails after a 200 response
header arrived is a failed fetch (`__retrieve_radar_image` returns False:
payload and deadline unchanged, the cached bytes returned, nothing
raised), yet the freshness token changed from `"X"` to `"Y"` — because
line 151 assigns `self._last_modified` before `await res.read()` on line
153 raises.  This falsifies the claim that every failed fetch leaves
`_last_modified` unchanged. -/
theorem c3_counterexample :
    retrieve_radar_image exCached (.bodyError 200 (some "Y")) =
      .ok ({ exCached with lastModified := some "Y" }, false) ∧
    (get_image exCached 700 700 (.bodyError 200 (some "Y"))).result =
      .ok exCached.lastImage ∧
    (get_image exCached 700 700 (.bodyError 200 (some "Y"))).state.lastImage =
      exCached.lastImage ∧
    (get_image exCached 700 700 (.bodyError 200 (some "Y"))).state.deadline =
      exCached.deadline ∧
    exCached.lastModified = some "X" ∧
    (get_image exCached 700 700 (.bodyError 200 (some "Y"))).state.lastModified =
      some "Y" := by
  decide

/-- C3 amended: a fetch that fails — timeout, transport error, a status
code rejected by `raise_for_status`, or a body read that raises a caught
exception — leaves the payload and the deadline unchanged, and the call
returns the cached payload to the caller instead of raising; the
freshness token is also unchanged, except when the failure struck the
body read of a sub-400, non-304 response that carried a Last-Modified
header, in which case the token has already been overwritten with that
header's value. -/
theorem c3_failure_atomicity_amended (s : CacheState) (tc ts : Nat) (o : HttpOutcome)
    (h : isFailureOutcome o = true) :
    (get_image s tc ts o).state.lastImage = s.lastImage ∧
    (get_image s tc ts o).state.deadline = s.deadline ∧
    (get_image s tc ts o).result = .ok s.lastImage ∧
    ((get_image s tc ts o).state.lastModified = s.lastModified ∨
      ∃ code lm, o = .bodyError code (some lm) ∧ code < 400 ∧ code ≠ 304 ∧
        (get_image s tc ts o).state.lastModified = some lm) := by
  by_cases hr : needs_refresh s tc
  · cases o with
    | timeout => simp [get_image, hr, retrieve_radar_image]
    | clientError => simp [get_image, hr, retrieve_radar_image]
    | unexpected => simp [isFailureOutcome] at h
    | status code lm body =>
      have h4 : 400 ≤ code := by simpa [isFailureOutcome] using h
      simp [get_image, hr, retrieve_radar_image, h4]
    | bodyError code lm =>
      have h3 : code ≠ 304 := by simpa [isFailureOutcome] using h
      by_cases h4 : 400 ≤ code
      · simp [get_image, hr, retrieve_radar_image, h4]
      · cases lm with
        | none => simp [get_image, hr, retrieve_radar_image, h4, h3]
        | some v =>
          refine ⟨?_, ?_, ?_, Or.inr ⟨code, v, rfl, Nat.lt_of_not_le h4, h3, ?_⟩⟩ <;>
            simp [get_image, hr, retrieve_radar_image, h4, h3]
  · have hr' : needs_refresh s tc = false := by simpa using hr
    simp [get_image_not_due s tc ts o hr']

/-- C3 amended, witnessed at a concrete failing status-500 fetch on the
fresh camera (token unchanged) — the body-read case is exercised by the
counterexample above. -/
theorem c3_failure_atomicity_amended_witness :
    (get_image exFresh 0 0 (.status 500 none [])).state.lastImage = exFresh.lastImage ∧
    (get_image exFresh 0 0 (.status 500 none [])).state.deadline = exFresh.deadline ∧
    (get_image exFresh 0 0 (.status 500 none [])).result = .ok exFresh.lastImage ∧
    ((get_image exFresh 0 0 (.status 500 none [])).state.lastModified =
        exFresh.lastModified ∨
      ∃ code lm, (HttpOutcome.status 500 none []) = .bodyError code (some lm) ∧
        code < 400 ∧ code ≠ 304 ∧
        (get_image exFresh 0 0 (.status 500 none [])).state.lastModified = some lm) :=
  c3_failure_atomicity_amended exFresh 0 0 (.status 500 none []) (by decide)

/-! ### C4: conditional revalidation -/

/-- C4: when a prior fetch recorded a Last-Modified value, the next fetch's
request carries it as the `If-Modified-Since` header; and a fetch answered
with HTTP 304 leaves the payload and the token unchanged while setting the
deadline to `tStart + delta`, where `tStart` is the time recorded before
the fetch began (the fetch's completion time never enters the model: the
only clock reads of a call are `tCall` and `tStart`). -/
theorem c4_conditional_revalidation (s : CacheState) (lm : String) (tCall tStart : Nat)
    (x : Option String) (b : Bytes)
    (htoken : s.lastModified = some lm) (hdue : needs_refresh s tCall = true) :
    requestHeaders s = [("If-Modified-Since", lm)] ∧
    get_image s tCall tStart (.status 304 x b) =
      ⟨.ok s.lastImage, { s with deadline := some (tStart + s.delta) }, 1,
        some ⟨radarUrl s.country s.dimension s.radarTimeframe,
          [("If-Modified-Since", lm)]⟩, true⟩ := by
  constructor
  · simp [requestHeaders, htoken]
  · simp [get_image, hdue, retrieve_radar_image, buildRequest, requestHeaders, htoken]

/-- C4 witnessed at the concrete cached camera answering 304 at time 700. -/
theorem c4_conditional_revalidation_witness :
    requestHeaders exCached = [("If-Modified-Since", "X")] ∧
    get_image exCached 700 700 (.status 304 (some "Y") [9]) =
      ⟨.ok exCached.lastImage, { exCached with deadline := some (700 + exCached.delta) }, 1,
        some ⟨radarUrl exCached.country exCached.dimension exCached.radarTimeframe,
          [("If-Modified-Since", "X")]⟩, true⟩ :=
  c4_conditional_revalidation exCached "X" 700 700 (some "Y") [9] (by decide) (by decide)

/-! ### C7: refresh predicate -/

/-- C7 counterexample: a state with a cached nonempty payload, a recorded
deadline of 100 and current time 50 not past it still has
`__needs_refresh` return true, because its ttl is 0 and the source tests
the truthiness of `self._delta` — the claimed "no payload, no deadline, or
time past deadline" disjunction is false here. -/
theorem c7_counterexample :
    needs_refresh exZeroDelta 50 = true ∧
    exZeroDelta.lastImage = some [1] ∧
    exZeroDelta.deadline = some 100 ∧
    ¬ 50 > 100 := by
  decide

/-- C7 amended: `__needs_refresh` returns true iff the ttl is zero, no
payload is cached or the cached payload is empty, or every recorded
deadline is strictly in the past (in particular when none is recorded);
when it returns false, `get_image` returns the cached payload at once,
with no fetch, no request, and without engaging the condition. -/
theorem c7_refresh_predicate_amended (s : CacheState) (t : Nat) :
    (needs_refresh s t = true ↔
      (s.delta = 0 ∨ s.lastImage = none ∨ s.lastImage = some [] ∨
        ∀ d, s.deadline = some d → t > d)) ∧
    (needs_refresh s t = false →
      ∀ o, get_image s t t o = ⟨.ok s.lastImage, s, 0, none, false⟩) := by
  refine ⟨needs_refresh_iff s t, fun h o => get_image_not_due s t t o h⟩

/-- C7 amended, witnessed at the cached camera at time 300: refresh not
due, and the call returns the cached bytes with no fetch. -/
theorem c7_refresh_predicate_amended_witness :
    (needs_refresh exCached 300 = true ↔
      (exCached.delta = 0 ∨ exCached.lastImage = none ∨ exCached.lastImage = some [] ∨
        ∀ d, exCached.deadline = some d → 300 > d)) ∧
    (needs_refresh exCached 300 = false →
      ∀ o, get_image exCached 300 300 o =
        ⟨.ok exCached.lastImage, exCached, 0, none, false⟩) :=
  c7_refresh_predicate_amended exCached 300

/-! ### C8: None only before the first success -/

/-- C8 counterexample: on a fresh camera whose very first fetch is answered
HTTP 304, the fetch is classified as successful (`__retrieve_radar_image`
returns true), yet that call returns None, and so does a later call whose
fetch times out — so a successful fetch does not guarantee later calls
return bytes. -/
theorem c8_counterexample :
    retrieve_radar_image exFresh (.status 304 none []) = .ok (exFresh, true) ∧
    (get_image exFresh 0 0 (.status 304 none [])).result = .ok none ∧
    (get_image ((get_image exFresh 0 0 (.status 304 none [])).state) 1 1 .timeout).result
      = .ok none := by
  decide

/-- C8 amended: `get_image` returns None only if no fetch has ever
succeeded with a full response body: once a payload is stored (which a
success-with-body call always does), it is never cleared, and every later
call that returns, returns a non-None byte sequence.  (A fetch answered
304 is classified successful but stores nothing, so it alone does not end
the None phase.) -/
theorem c8_none_only_before_body_amended :
    (∀ (s : CacheState) (tc ts : Nat) (o : HttpOutcome), s.lastImage ≠ none →
      (get_image s tc ts o).state.lastImage ≠ none ∧
      ∀ r, (get_image s tc ts o).result = .ok r → r ≠ none) ∧
    (∀ (s : CacheState) (calls : List (Nat × HttpOutcome)), s.lastImage ≠ none →
      (run_calls s calls).lastImage ≠ none) ∧
    (∀ (s : CacheState) (tc ts code : Nat) (lm : Option String) (body : Bytes),
      code < 400 → code ≠ 304 →
      (get_image s tc ts (.status code lm body)).state.lastImage ≠ none) := by
  have step : ∀ (s : CacheState) (tc ts : Nat) (o : HttpOutcome), s.lastImage ≠ none →
      (get_image s tc ts o).state.lastImage ≠ none ∧
      ∀ r, (get_image s tc ts o).result = .ok r → r ≠ none := by
    intro s tc ts o h
    refine ⟨lastImage_ne_none_step s tc ts o h, ?_⟩
    intro r hr
    by_cases hd : needs_refresh s tc
    · cases o with
      | timeout =>
        simp [get_image, hd, retrieve_radar_image] at hr
        simpa [← hr] using h
      | clientError =>
        simp [get_image, hd, retrieve_radar_image] at hr
        simpa [← hr] using h
      | unexpected =>
        simp [get_image, hd, retrieve_radar_image] at hr
      | status code lm body =>
        by_cases h4 : 400 ≤ code
        · simp [get_image, hd, retrieve_radar_image, h4] at hr
          simpa [← hr] using h
        · by_cases h3 : code = 304
          · simp [get_image, hd, retrieve_radar_image, h4, h3] at hr
            simpa [← hr] using h
          · cases lm <;>
              · simp [get_image, hd, retrieve_radar_image, h4, h3] at hr
                simp [← hr]
      | bodyError code lm =>
        by_cases h4 : 400 ≤ code
        · simp [get_image, hd, retrieve_radar_image, h4] at hr
          simpa [← hr] using h
        · by_cases h3 : code = 304
          · simp [get_image, hd, retrieve_radar_image, h4, h3] at hr
            simpa [← hr] using h
          · cases lm <;>
              · simp [get_image, hd, retrieve_radar_image, h4, h3] at hr
                simpa [← hr] using h
    · have hd' : needs_refresh s tc = false := by simpa using hd
      rw [get_image_not_due s tc ts o hd'] at hr
      cases hr
      exact h
  refine ⟨step, ?_, ?_⟩
  · intro s calls
    induction calls generalizing s with
    | nil => intro h; simpa [run_calls] using h
    | cons c rest ih =>
      intro h
      have h1 := (step s c.1 c.1 c.2 h).1
      simpa [run_calls] using ih _ h1
  · intro s tc ts code lm body hcode h304
    by_cases hd : needs_refresh s tc
    · have h4 : ¬ 400 ≤ code := Nat.not_le.mpr hcode
      cases lm <;> simp [get_image, hd, retrieve_radar_image, h4, h304]
    · have hd' : needs_refresh s tc = false := by simpa using hd
      rw [get_image_not_due s tc ts _ hd']
      have := (needs_refresh_eq_false s tc).mp hd'
      rcases this with ⟨-, htr, -⟩
      intro hnone
      rw [hnone] at htr
      simp [truthyImage] at htr

/-- C8 amended, witnessed: after the cached camera stores `[1, 2]`, a call
whose fetch times out still answers with the stored bytes. -/
theorem c8_none_only_before_body_amended_witness :
    (get_image exCached 700 700 .timeout).state.lastImage ≠ none ∧
    ∀ r, (get_image exCached 700 700 .timeout).result = .ok r → r ≠ none :=
  c8_none_only_before_body_amended.1 exCached 700 700 .timeout (by decide)

/-! ### C10: the empty-body edge case -/

/-- C10: a fetch that succeeds with a status below 400 (other than 304) and
an empty body stores the empty byte string as payload; every state whose
payload is the empty byte string has `__needs_refresh` return true no
matter the deadline (the source tests truthiness, not None-ness); hence
every subsequent call issues a new network fetch. -/
theorem c10_empty_body (s : CacheState) (tc ts code : Nat) (lm : Option String)
    (hdue : needs_refresh s tc = true) (hcode : code < 400) (h304 : code ≠ 304) :
    (get_image s tc ts (.status code lm [])).state.lastImage = some [] ∧
    (∀ (s2 : CacheState) (t : Nat), s2.lastImage = some [] →
      needs_refresh s2 t = true) ∧
    (∀ (s2 : CacheState) (t : Nat) (o : HttpOutcome), s2.lastImage = some [] →
      (get_image s2 t t o).fetches = 1 ∧ (get_image s2 t t o).usedCondition = true) := by
  have h4 : ¬ 400 ≤ code := Nat.not_le.mpr hcode
  refine ⟨?_, ?_, ?_⟩
  · cases lm <;> simp [get_image, hdue, retrieve_radar_image, h4, h304]
  · intro s2 t h2
    rw [needs_refresh_iff]
    exact Or.inr (Or.inr (Or.inl h2))
  · intro s2 t o h2
    have hr : needs_refresh s2 t = true := by
      rw [needs_refresh_iff]
      exact Or.inr (Or.inr (Or.inl h2))
    exact ⟨(get_image_due s2 t t o hr).1, (get_image_due s2 t t o hr).2.2⟩

/-- C10 witnessed: a 200 fetch with empty body on the fresh camera stores
`some []`, and the resulting state fetches again on the next call. -/
theorem c10_empty_body_witness :
    (get_image exFresh 0 0 (.status 200 none [])).state.lastImage = some [] ∧
    (∀ (s2 : CacheState) (t : Nat), s2.lastImage = some [] →
      needs_refresh s2 t = true) ∧
    (∀ (s2 : CacheState) (t : Nat) (o : HttpOutcome), s2.lastImage = some [] →
      (get_image s2 t t o).fetches = 1 ∧ (get_image s2 t t o).usedCondition = true) :=
  c10_empty_body exFresh 0 0 200 none (by decide) (by decide) (by decide)

/-! ### Cooperative-concurrency model of `async_camera_image`

Many tasks run `async_camera_image` against the shared instance.  Each
task's position in the coroutine is a program counter; one scheduler step
runs one task's next synchronous segment (the segments between `await`
suspension points).  The condition's lock is represented by the `hasLock`
program counter: a task holds the lock exactly while it sits in the
locked section whose exit is its next step.  The clock is held fixed for
the duration of a scenario (the claims concern a single refresh window).
-/

/-- Program counter of one task running `async_camera_image`:

* `start`: about to evaluate `__needs_refresh` (line 182);
* `wantLock`: refresh due, about to enter `async with self._condition`
  (line 186);
* `hasLock`: holding the lock, about to test `self._loading` (line 188);
* `waiting`: suspended in `self._condition.wait()` (line 190), lock
  released;
* `notified`: woken by `notify_all`, about to re-acquire the lock and
  return `self._last_image` (line 191);
* `fetching`: `self._loading` set, lock released, executing
  `self.__retrieve_radar_image()` (lines 196-201);
* `cleanup exc r`: fetch finished (`exc` true when an exception escaped
  the `try`, `r` the value the `return` evaluated), about to run the
  `finally` block (lines 204-208);
* `done exc r`: call completed, returning `r` (raising, when `exc`). -/
inductive TPC where
  | start
  | wantLock
  | hasLock
  | waiting
  | notified
  | fetching
  | cleanup (exc : Bool) (r : Option Bytes)
  | done (exc : Bool) (r : Option Bytes)
  deriving Repr, DecidableEq

/-- A task is past `self._loading = True` and not yet through the
`finally` block: its fetch is in flight. -/
def isFetchSection : TPC → Bool
  | .fetching => true
  | .cleanup _ _ => true
  | _ => false

/-- The call has completed. -/
def isDone : TPC → Bool
  | .done _ _ => true
  | _ => false

/-- Program counters from which a task never issues a fetch. -/
def noFetchPC : TPC → Bool
  | .waiting => true
  | .notified => true
  | .done _ _ => true
  | _ => false

/-- Program counters a task can only occupy after performing its fetch. -/
def postFetchPC : TPC → Bool
  | .cleanup _ _ => true
  | .done _ _ => true
  | _ => false

/-- Global state: the shared cache instance, the `_loading` flag, each
task's program counter, a per-task flag recording whether that task has
issued its network fetch, the HTTP layer's behaviour for successive
fetches, and the (fixed) clock. -/
structure CState (N : Nat) where
  cache : CacheState
  loading : Bool
  pcs : Fin N → TPC
  fetched : Fin N → Bool
  oracle : List HttpOutcome
  now : Nat

/-- The condition's lock is free: no task sits in a locked section. -/
def lockFree {N : Nat} (s : CState N) : Prop :=
  ∀ u, s.pcs u ≠ TPC.hasLock

instance lockFreeDec {N : Nat} (s : CState N) : Decidable (lockFree s) :=
  inferInstanceAs (Decidable (∀ u, s.pcs u ≠ TPC.hasLock))

/-- Models `self._condition.notify_all()`: every task suspended in `wait()` is
woken. -/
def notifyAll {N : Nat} (p : Fin N → TPC) : Fin N → TPC :=
  fun u => if p u = TPC.waiting then TPC.notified else p u

/-- One scheduler step: task `t` runs its next synchronous segment of
`async_camera_image` (lines 161-208).  `none` when `t` cannot run — it is
blocked on the lock, parked in `wait()`, already finished, or (fetching
with an exhausted oracle) its response has not arrived. -/
def step {N : Nat} (t : Fin N) (s : CState N) : Option (CState N) :=
  match s.pcs t with
  | .start =>
      -- line 182: `if not self.__needs_refresh(): return self._last_image`
      if needs_refresh s.cache s.now then
        some { s with pcs := Function.update s.pcs t TPC.wantLock }
      else
        some { s with pcs := Function.update s.pcs t (TPC.done false s.cache.lastImage) }
  | .wantLock =>
      -- line 186: enter `async with self._condition`
      if lockFree s then some { s with pcs := Function.update s.pcs t TPC.hasLock }
      else none
  | .hasLock =>
      -- lines 188-194: test `_loading`; either wait, or set it and leave the lock
      if s.loading then
        some { s with pcs := Function.update s.pcs t TPC.waiting }
      else
        some { s with loading := true, pcs := Function.update s.pcs t TPC.fetching }
  | .waiting => none
  | .notified =>
      -- line 191: `wait()` re-acquires the lock; return `self._last_image`
      if lockFree s then
        some { s with pcs := Function.update s.pcs t (TPC.done false s.cache.lastImage) }
      else none
  | .fetching =>
      -- lines 197-201: the fetch resolves; on success the deadline becomes
      -- `now + timedelta(seconds=self._delta)` with `now` recorded before the fetch
      match s.oracle with
      | [] => none
      | o :: rest =>
        match retrieve_radar_image s.cache o with
        | .error _ =>
            some { s with
                    oracle := rest,
                    fetched := Function.update s.fetched t true,
                    pcs := Function.update s.pcs t (TPC.cleanup true none) }
        | .ok (c1, wasUpdated) =>
            let c2 := if wasUpdated then { c1 with deadline := some (s.now + c1.delta) }
                      else c1
            some { s with
                    cache := c2, oracle := rest,
                    fetched := Function.update s.fetched t true,
                    pcs := Function.update s.pcs t (TPC.cleanup false c2.lastImage) }
  | .cleanup exc r =>
      -- lines 204-208: `finally`: re-acquire the lock, reset `_loading`,
      -- notify all waiting tasks, release the lock, complete the call
      if lockFree s then
        some { s with
                loading := false,
                pcs := Function.update (notifyAll s.pcs) t (TPC.done exc r) }
      else none
  | .done _ _ => none

/-- Run a schedule: each entry names the task that takes the next step. -/
def run {N : Nat} : CState N → List (Fin N) → Option (CState N)
  | s, [] => some s
  | s, t :: rest =>
    match step t s with
    | none => none
    | some s2 => run s2 rest

/-- Initial state: `N` tasks all invoked on the same instance: every task at the top of
`async_camera_image`, `_loading` false, no fetch issued yet. -/
def initC (N : Nat) (cache : CacheState) (orc : List HttpOutcome) (now : Nat) : CState N :=
  ⟨cache, false, fun _ => TPC.start, fun _ => false, orc, now⟩

/-! ### Basic lemmas about the scheduler -/

lemma isFetchSection_notifyAll {N : Nat} (p : Fin N → TPC) (u : Fin N) :
    isFetchSection (notifyAll p u) = isFetchSection (p u) := by
  unfold notifyAll
  split_ifs with h
  · rw [h]; rfl
  · rfl

lemma noFetchPC_notifyAll {N : Nat} (p : Fin N → TPC) (u : Fin N) :
    noFetchPC (notifyAll p u) = noFetchPC (p u) := by
  unfold notifyAll
  split_ifs with h
  · rw [h]; rfl
  · rfl

lemma postFetchPC_notifyAll {N : Nat} (p : Fin N → TPC) (u : Fin N) :
    postFetchPC (notifyAll p u) = postFetchPC (p u) := by
  unfold notifyAll
  split_ifs with h
  · rw [h]; rfl
  · rfl

lemma run_nil {N : Nat} (s : CState N) : run s [] = some s := rfl

lemma run_cons {N : Nat} (s : CState N) (t : Fin N) (rest : List (Fin N)) :
    run s (t :: rest) =
      match step t s with
      | none => none
      | some s2 => run s2 rest := rfl

/-- Splitting a schedule: running `a ++ b` is running `a` and then `b`. -/
lemma run_append {N : Nat} (a b : List (Fin N)) :
    ∀ s : CState N, run s (a ++ b) = (run s a).bind (fun m => run m b) := by
  induction a with
  | nil => intro s; rfl
  | cons t rest ih =>
    intro s
    rw [List.cons_append, run_cons, run_cons]
    cases step t s with
    | none => rfl
    | some s2 => exact ih s2

/-- A property preserved by every step is preserved by every run. -/
lemma run_inv {N : Nat} {P : CState N → Prop}
    (hstep : ∀ (t : Fin N) (s s' : CState N), P s → step t s = some s' → P s') :
    ∀ (sch : List (Fin N)) (s s' : CState N), P s → run s sch = some s' → P s' := by
  intro sch
  induction sch with
  | nil =>
    intro s s' hP h
    rw [run_nil] at h
    cases h
    exact hP
  | cons t rest ih =>
    intro s s' hP h
    rw [run_cons] at h
    cases hstep2 : step t s with
    | none => rw [hstep2] at h; cases h
    | some s2 =>
      rw [hstep2] at h
      exact ih s2 s' (hstep t s s2 hP hstep2) h

/-- Effect of a step on another task's program counter: it is untouched,
except that a waiting task may be notified. -/
lemma pcs_after_step {N : Nat} (t u : Fin N) (s s' : CState N)
    (h : step t s = some s') (hu : u ≠ t) :
    s'.pcs u = s.pcs u ∨ (s.pcs u = TPC.waiting ∧ s'.pcs u = TPC.notified) := by
  cases hpc : s.pcs t with
  | start =>
    simp only [step, hpc] at h
    split_ifs at h <;> cases h <;> exact Or.inl (Function.update_noteq hu _ _)
  | wantLock =>
    simp only [step, hpc] at h
    split_ifs at h
    cases h
    exact Or.inl (Function.update_noteq hu _ _)
  | hasLock =>
    simp only [step, hpc] at h
    split_ifs at h <;> cases h <;> exact Or.inl (Function.update_noteq hu _ _)
  | waiting => simp only [step, hpc] at h; cases h
  | notified =>
    simp only [step, hpc] at h
    split_ifs at h
    cases h
    exact Or.inl (Function.update_noteq hu _ _)
  | fetching =>
    simp only [step, hpc] at h
    cases horc : s.oracle with
    | nil => simp only [horc] at h; cases h
    | cons o rest =>
      simp only [horc] at h
      cases hro : retrieve_radar_image s.cache o with
      | error e =>
        simp only [hro] at h
        cases h
        exact Or.inl (Function.update_noteq hu _ _)
      | ok p =>
        obtain ⟨c1, wu⟩ := p
        simp only [hro] at h
        cases h
        exact Or.inl (Function.update_noteq hu _ _)
  | cleanup exc r =>
    simp only [step, hpc] at h
    split_ifs at h
    cases h
    by_cases hw : s.pcs u = TPC.waiting
    · refine Or.inr ⟨hw, ?_⟩
      simp only [Function.update_noteq hu]
      simp [notifyAll, hw]
    · refine Or.inl ?_
      simp only [Function.update_noteq hu]
      simp [notifyAll, hw]
  | done exc r => simp only [step, hpc] at h; cases h

/-- A step never changes another task's fetched flag. -/
lemma fetched_after_step {N : Nat} (t u : Fin N) (s s' : CState N)
    (h : step t s = some s') (hu : u ≠ t) :
    s'.fetched u = s.fetched u := by
  cases hpc : s.pcs t with
  | start =>
    simp only [step, hpc] at h
    split_ifs at h <;> cases h <;> rfl
  | wantLock =>
    simp only [step, hpc] at h
    split_ifs at h
    cases h
    rfl
  | hasLock =>
    simp only [step, hpc] at h
    split_ifs at h <;> cases h <;> rfl
  | waiting => simp only [step, hpc] at h; cases h
  | notified =>
    simp only [step, hpc] at h
    split_ifs at h
    cases h
    rfl
  | fetching =>
    simp only [step, hpc] at h
    cases horc : s.oracle with
    | nil => simp only [horc] at h; cases h
    | cons o rest =>
      simp only [horc] at h
      cases hro : retrieve_radar_image s.cache o with
      | error e =>
        simp only [hro] at h
        cases h
        exact Function.update_noteq hu _ _
      | ok p =>
        obtain ⟨c1, wu⟩ := p
        simp only [hro] at h
        cases h
        exact Function.update_noteq hu _ _
  | cleanup exc r =>
    simp only [step, hpc] at h
    split_ifs at h
    cases h
    rfl
  | done exc r => simp only [step, hpc] at h; cases h

/-! ### The loading-flag invariant (C9) -/

/-- The `_loading` flag is an exact indicator of a unique in-flight fetch:
false means no task is between `self._loading = True` and its `finally`
block; true means exactly one is. -/
def LoadInv {N : Nat} (s : CState N) : Prop :=
  (s.loading = false → ∀ u, isFetchSection (s.pcs u) = false) ∧
  (s.loading = true → ∃ w, isFetchSection (s.pcs w) = true ∧
    ∀ u, u ≠ w → isFetchSection (s.pcs u) = false)

lemma loadInv_pcUpdate {N : Nat} (s : CState N) (t : Fin N) (v : TPC)
    (hinv : LoadInv s) (hold : isFetchSection (s.pcs t) = false)
    (hnew : isFetchSection v = false) :
    LoadInv { s with pcs := Function.update s.pcs t v } := by
  constructor
  · intro hl u
    by_cases hut : u = t
    · subst hut
      simpa [Function.update_same] using hnew
    · simp only [Function.update_noteq hut]
      exact hinv.1 hl u
  · intro hl
    obtain ⟨w, hw, hwo⟩ := hinv.2 hl
    have hwt : w ≠ t := by
      intro e
      rw [e, hold] at hw
      cases hw
    refine ⟨w, ?_, ?_⟩
    · simpa [Function.update_noteq hwt] using hw
    · intro u hu
      by_cases hut : u = t
      · subst hut
        simpa [Function.update_same] using hnew
      · simp only [Function.update_noteq hut]
        exact hwo u hu

lemma loadInv_step {N : Nat} (t : Fin N) (s s' : CState N)
    (hinv : LoadInv s) (h : step t s = some s') : LoadInv s' := by
  cases hpc : s.pcs t with
  | start =>
    simp only [step, hpc] at h
    split_ifs at h <;> cases h <;>
      exact loadInv_pcUpdate s t _ hinv (by rw [hpc]; rfl) rfl
  | wantLock =>
    simp only [step, hpc] at h
    split_ifs at h
    cases h
    exact loadInv_pcUpdate s t _ hinv (by rw [hpc]; rfl) rfl
  | hasLock =>
    simp only [step, hpc] at h
    split_ifs at h with hl
    · cases h
      exact loadInv_pcUpdate s t _ hinv (by rw [hpc]; rfl) rfl
    · cases h
      have hl' : s.loading = false := by simpa using hl
      constructor
      · intro hfalse
        cases hfalse
      · intro _
        refine ⟨t, by simp [Function.update_same, isFetchSection], ?_⟩
        intro u hu
        simp only [Function.update_noteq hu]
        exact hinv.1 hl' u
  | waiting => simp only [step, hpc] at h; cases h
  | notified =>
    simp only [step, hpc] at h
    split_ifs at h
    cases h
    exact loadInv_pcUpdate s t _ hinv (by rw [hpc]; rfl) rfl
  | fetching =>
    have hsec : isFetchSection (s.pcs t) = true := by rw [hpc]; rfl
    have hload : s.loading = true := by
      by_contra hl
      have hl' : s.loading = false := by simpa using hl
      have := hinv.1 hl' t
      rw [this] at hsec
      cases hsec
    obtain ⟨w, hw, hwo⟩ := hinv.2 hload
    have hwt : w = t := by
      by_contra hwt
      have := hwo t (fun e => hwt e.symm)
      rw [this] at hsec
      cases hsec
    subst hwt
    simp only [step, hpc] at h
    cases horc : s.oracle with
    | nil => simp only [horc] at h; cases h
    | cons o rest =>
      simp only [horc] at h
      have hafter : ∀ (pc2 : TPC) (f2 : Fin N → Bool), isFetchSection pc2 = true →
          LoadInv { s with
                     oracle := rest, fetched := f2,
                     pcs := Function.update s.pcs w pc2 } := by
        intro pc2 f2 hpc2
        constructor
        · intro hfalse
          rw [hload] at hfalse
          cases hfalse
        · intro _
          refine ⟨w, by simpa [Function.update_same] using hpc2, ?_⟩
          intro u hu
          simp only [Function.update_noteq hu]
          exact hwo u hu
      cases hro : retrieve_radar_image s.cache o with
      | error e =>
        simp only [hro] at h
        cases h
        exact hafter _ _ rfl
      | ok p =>
        obtain ⟨c1, wu⟩ := p
        simp only [hro] at h
        cases h
        constructor
        · intro hfalse
          rw [hload] at hfalse
          cases hfalse
        · intro _
          refine ⟨w, by simp [Function.update_same, isFetchSection], ?_⟩
          intro u hu
          simp only [Function.update_noteq hu]
          exact hwo u hu
  | cleanup exc r =>
    have hsec : isFetchSection (s.pcs t) = true := by rw [hpc]; rfl
    have hload : s.loading = true := by
      by_contra hl
      have hl' : s.loading = false := by simpa using hl
      have := hinv.1 hl' t
      rw [this] at hsec
      cases hsec
    obtain ⟨w, hw, hwo⟩ := hinv.2 hload
    have hwt : w = t := by
      by_contra hwt
      have := hwo t (fun e => hwt e.symm)
      rw [this] at hsec
      cases hsec
    subst hwt
    simp only [step, hpc] at h
    split_ifs at h
    cases h
    constructor
    · intro _ u
      by_cases hut : u = w
      · subst hut
        simp [Function.update_same, isFetchSection]
      · simp only [Function.update_noteq hut, isFetchSection_notifyAll]
        exact hwo u hut
    · intro habs
      cases habs
  | done exc r => simp only [step, hpc] at h; cases h

lemma loadInv_init (N : Nat) (cache : CacheState) (orc : List HttpOutcome) (now : Nat) :
    LoadInv (initC N cache orc now) := by
  constructor
  · intro _ u
    rfl
  · intro habs
    cases habs

/-! ### Fetch-flag bookkeeping invariants (C1) -/

/-- A task's fetched flag is set only once it has passed its fetch. -/
def FlagInv {N : Nat} (s : CState N) : Prop :=
  ∀ u, s.fetched u = true → postFetchPC (s.pcs u) = true

lemma flagInv_init (N : Nat) (cache : CacheState) (orc : List HttpOutcome) (now : Nat) :
    FlagInv (initC N cache orc now) := by
  intro u h
  cases h

lemma flagInv_step {N : Nat} (t : Fin N) (s s' : CState N)
    (hinv : FlagInv s) (h : step t s = some s') : FlagInv s' := by
  intro u hf
  by_cases hut : u = t
  · subst hut
    cases hpc : s.pcs u with
    | start =>
      simp only [step, hpc] at h
      split_ifs at h <;> cases h <;>
        · exfalso
          have hfu : s.fetched u = true := hf
          have := hinv u hfu
          rw [hpc] at this
          cases this
    | wantLock =>
      simp only [step, hpc] at h
      split_ifs at h
      cases h
      exfalso
      have hfu : s.fetched u = true := hf
      have := hinv u hfu
      rw [hpc] at this
      cases this
    | hasLock =>
      simp only [step, hpc] at h
      split_ifs at h <;> cases h <;>
        · exfalso
          have hfu : s.fetched u = true := hf
          have := hinv u hfu
          rw [hpc] at this
          cases this
    | waiting => simp only [step, hpc] at h; cases h
    | notified =>
      simp only [step, hpc] at h
      split_ifs at h
      cases h
      simp only [Function.update_same]
      rfl
    | fetching =>
      simp only [step, hpc] at h
      cases horc : s.oracle with
      | nil => simp only [horc] at h; cases h
      | cons o rest =>
        simp only [horc] at h
        cases hro : retrieve_radar_image s.cache o with
        | error e =>
          simp only [hro] at h
          cases h
          simp only [Function.update_same]
          rfl
        | ok p =>
          obtain ⟨c1, wu⟩ := p
          simp only [hro] at h
          cases h
          simp only [Function.update_same]
          rfl
    | cleanup exc r =>
      simp only [step, hpc] at h
      split_ifs at h
      cases h
      simp only [Function.update_same]
      rfl
    | done exc r => simp only [step, hpc] at h; cases h
  · have hfu : s.fetched u = true := by
      rw [← fetched_after_step t u s s' h hut]
      exact hf
    have hpost := hinv u hfu
    rcases pcs_after_step t u s s' h hut with h1 | ⟨h1, h2⟩
    · rw [h1]
      exact hpost
    · rw [h1] at hpost
      cases hpost

/-- Completed calls stay completed. -/
lemma isDone_step {N : Nat} (t u : Fin N) (s s' : CState N)
    (h : step t s = some s') (hd : isDone (s.pcs u) = true) :
    isDone (s'.pcs u) = true := by
  by_cases hut : u = t
  · subst hut
    cases hpc : s.pcs u with
    | done exc r => simp only [step, hpc] at h; cases h
    | start => rw [hpc] at hd; cases hd
    | wantLock => rw [hpc] at hd; cases hd
    | hasLock => rw [hpc] at hd; cases hd
    | waiting => rw [hpc] at hd; cases hd
    | notified => rw [hpc] at hd; cases hd
    | fetching => rw [hpc] at hd; cases hd
    | cleanup exc r => rw [hpc] at hd; cases hd
  · rcases pcs_after_step t u s s' h hut with h1 | ⟨h1, h2⟩
    · rw [h1]; exact hd
    · rw [h1] at hd; cases hd

lemma isDone_run {N : Nat} (sch : List (Fin N)) (s s' : CState N) (u : Fin N)
    (h : run s sch = some s') (hd : isDone (s.pcs u) = true) :
    isDone (s'.pcs u) = true := by
  induction sch generalizing s with
  | nil => rw [run_nil] at h; cases h; exact hd
  | cons t rest ih =>
    rw [run_cons] at h
    cases hstep : step t s with
    | none => rw [hstep] at h; cases h
    | some s2 =>
      rw [hstep] at h
      exact ih s2 h (isDone_step t u s s2 hstep hd)

/-- From `waiting` a task only ever moves to `notified` and then `done`,
never issuing a fetch of its own: its fetched flag is frozen. -/
lemma noFetch_step {N : Nat} (t u : Fin N) (s s' : CState N)
    (h : step t s = some s') (hw : noFetchPC (s.pcs u) = true) :
    noFetchPC (s'.pcs u) = true ∧ s'.fetched u = s.fetched u := by
  by_cases hut : u = t
  · subst hut
    cases hpc : s.pcs u with
    | waiting => simp only [step, hpc] at h; cases h
    | done exc r => simp only [step, hpc] at h; cases h
    | notified =>
      simp only [step, hpc] at h
      split_ifs at h
      cases h
      constructor
      · simp only [Function.update_same]
        rfl
      · rfl
    | start => rw [hpc] at hw; cases hw
    | wantLock => rw [hpc] at hw; cases hw
    | hasLock => rw [hpc] at hw; cases hw
    | fetching => rw [hpc] at hw; cases hw
    | cleanup exc r => rw [hpc] at hw; cases hw
  · have h2 := fetched_after_step t u s s' h hut
    rcases pcs_after_step t u s s' h hut with h1 | ⟨h1, h3⟩
    · rw [h1]; exact ⟨hw, h2⟩
    · rw [h3]; exact ⟨rfl, h2⟩

lemma noFetch_run {N : Nat} (sch : List (Fin N)) (s s' : CState N) (u : Fin N)
    (h : run s sch = some s') (hw : noFetchPC (s.pcs u) = true) :
    noFetchPC (s'.pcs u) = true ∧ s'.fetched u = s.fetched u := by
  induction sch generalizing s with
  | nil => rw [run_nil] at h; cases h; exact ⟨hw, rfl⟩
  | cons t rest ih =>
    rw [run_cons] at h
    cases hstep : step t s with
    | none => rw [hstep] at h; cases h
    | some s2 =>
      rw [hstep] at h
      obtain ⟨ha, hb⟩ := noFetch_step t u s s2 hstep hw
      obtain ⟨hc, hd⟩ := ih s2 h ha
      exact ⟨hc, hd.trans hb⟩

/-- Tracking the single fetcher: it is at `fetching` with its flag clear,
or past its fetch with its flag set. -/
def FetcherInv {N : Nat} (f : Fin N) (s : CState N) : Prop :=
  (s.pcs f = TPC.fetching ∧ s.fetched f = false) ∨
  (postFetchPC (s.pcs f) = true ∧ s.fetched f = true)

lemma fetcherInv_step {N : Nat} (f t : Fin N) (s s' : CState N)
    (hinv : FetcherInv f s) (h : step t s = some s') : FetcherInv f s' := by
  by_cases hft : f = t
  · subst hft
    rcases hinv with ⟨h1, h2⟩ | ⟨h1, h2⟩
    · simp only [step, h1] at h
      cases horc : s.oracle with
      | nil => simp only [horc] at h; cases h
      | cons o rest =>
        simp only [horc] at h
        cases hro : retrieve_radar_image s.cache o with
        | error e =>
          simp only [hro] at h
          cases h
          refine Or.inr ⟨?_, ?_⟩
          · simp only [Function.update_same]
            rfl
          · simp only [Function.update_same]
        | ok p =>
          obtain ⟨c1, wu⟩ := p
          simp only [hro] at h
          cases h
          refine Or.inr ⟨?_, ?_⟩
          · simp only [Function.update_same]
            rfl
          · simp only [Function.update_same]
    · cases hpc : s.pcs f with
      | cleanup exc r =>
        simp only [step, hpc] at h
        split_ifs at h
        cases h
        refine Or.inr ⟨?_, h2⟩
        simp only [Function.update_same]
        rfl
      | done exc r => simp only [step, hpc] at h; cases h
      | start => rw [hpc] at h1; cases h1
      | wantLock => rw [hpc] at h1; cases h1
      | hasLock => rw [hpc] at h1; cases h1
      | waiting => rw [hpc] at h1; cases h1
      | notified => rw [hpc] at h1; cases h1
      | fetching => rw [hpc] at h1; cases h1
  · have h2 := fetched_after_step t f s s' h hft
    rcases hinv with ⟨ha, hb⟩ | ⟨ha, hb⟩
    · rcases pcs_after_step t f s s' h hft with h1 | ⟨h1, h3⟩
      · exact Or.inl ⟨by rw [h1, ha], by rw [h2, hb]⟩
      · rw [ha] at h1; cases h1
    · rcases pcs_after_step t f s s' h hft with h1 | ⟨h1, h3⟩
      · exact Or.inr ⟨by rw [h1]; exact ha, by rw [h2, hb]⟩
      · rw [h1] at ha; cases ha

lemma fetcherInv_run {N : Nat} (f : Fin N) (sch : List (Fin N)) (s s' : CState N)
    (h : run s sch = some s') (hinv : FetcherInv f s) : FetcherInv f s' :=
  run_inv (fun t a b hP hs => fetcherInv_step f t a b hP hs) sch s s' hinv h

/-! ### C9 and C1 -/

/-- Two tasks against a fresh camera; the single fetch answers 200 with
body `[1, 2]`. -/
def exInitC : CState 2 := initC 2 exFresh [HttpOutcome.status 200 (some "X") [1, 2]] 0

/-- A schedule where task 0 fetches and task 1 engages the condition and
waits: 0 checks, 1 checks, 0 locks, 0 sets loading, 1 locks, 1 waits,
0 resolves its fetch, 0 cleans up and notifies, 1 returns. -/
def exSch : List (Fin 2) := [0, 1, 0, 0, 1, 1, 0, 0, 1]

/-- The state at the end of `exSch`: both calls completed. -/
def exFinal : CState 2 := (run exInitC exSch).getD exInitC

/-- The state after six steps of `exSch`: task 0 fetching, task 1 waiting. -/
def exMid6 : CState 2 := (run exInitC (exSch.take 6)).getD exInitC

/-- The state after seven steps of `exSch`: task 0 in its `finally` block
with the fetched image, task 1 still waiting. -/
def exMid : CState 2 := (run exInitC (exSch.take 7)).getD exInitC

/-- State `exMid` after task 0 runs its `finally` block. -/
def exMidNext : CState 2 := (step 0 exMid).getD exMid

/-- C9: the `_loading` flag is reset and all waiters notified on every exit
path of a call that set it.  First: in every reachable state, if the flag
is set then some task is inside the fetch section — equivalently, the flag
is false whenever no fetch is executing.  Second: the `finally` step of any
task (success, soft failure, or unexpected exception alike — the `exc`
flag covers all of them) atomically resets the flag, completes the call,
and moves every waiting task to notified, so the reset-and-notify cannot
be skipped on any exit path. -/
theorem c9_loading_reset :
    (∀ (N : Nat) (cache : CacheState) (orc : List HttpOutcome) (now : Nat)
        (sch : List (Fin N)) (s' : CState N),
      run (initC N cache orc now) sch = some s' →
      s'.loading = true → ∃ w, isFetchSection (s'.pcs w) = true) ∧
    (∀ (N : Nat) (t : Fin N) (s s' : CState N) (exc : Bool) (r : Option Bytes),
      s.pcs t = TPC.cleanup exc r → step t s = some s' →
      s'.loading = false ∧ s'.pcs t = TPC.done exc r ∧
      ∀ u, s.pcs u = TPC.waiting → s'.pcs u = TPC.notified) := by
  constructor
  · intro N cache orc now sch s' hrun hload
    have hinv : LoadInv s' :=
      run_inv (fun t a b hP hs => loadInv_step t a b hP hs) sch _ s'
        (loadInv_init N cache orc now) hrun
    obtain ⟨w, hw, -⟩ := hinv.2 hload
    exact ⟨w, hw⟩
  · intro N t s s' exc r hpc h
    simp only [step, hpc] at h
    split_ifs at h
    cases h
    refine ⟨rfl, ?_, ?_⟩
    · simp only [Function.update_same]
    · intro u hu
      have hut : u ≠ t := by
        intro e
        rw [e, hpc] at hu
        cases hu
      simp only [Function.update_noteq hut]
      simp [notifyAll, hu]

/-- C9 witnessed on the concrete two-task run: the final state's flag
agrees with the invariant, and the concrete `finally` step resets the flag
and notifies the concrete waiter. -/
theorem c9_loading_reset_witness :
    (exFinal.loading = true → ∃ w, isFetchSection (exFinal.pcs w) = true) ∧
    (exMidNext.loading = false ∧ exMidNext.pcs 0 = TPC.done false (some [1, 2]) ∧
      ∀ u, exMid.pcs u = TPC.waiting → exMidNext.pcs u = TPC.notified) :=
  ⟨fun h => c9_loading_reset.1 2 exFresh [HttpOutcome.status 200 (some "X") [1, 2]] 0
      exSch exFinal rfl h,
    c9_loading_reset.2 2 0 exMid exMidNext false (some [1, 2]) (by decide) rfl⟩

/-- C1: single-flight.  Consider any complete run of `N` concurrent
`async_camera_image` calls in which, at some prefix `i`, one task `f` is
performing the fetch and every other task has engaged the condition and
is waiting on it (the claim's scenario: the non-fetching callers block on
the condition while a refresh is due).  Then over the whole run exactly
one network fetch is issued, and no call completes at or before the
prefix — every call returns only after the in-flight fetch settles. -/
theorem c1_single_flight (N : Nat) (cache : CacheState) (orc : List HttpOutcome)
    (now : Nat) (sch : List (Fin N)) (s' : CState N) (i : Nat) (f : Fin N)
    (si : CState N)
    (hrun : run (initC N cache orc now) sch = some s')
    (hdone : ∀ u, isDone (s'.pcs u) = true)
    (hpre : run (initC N cache orc now) (List.take i sch) = some si)
    (hfetch : si.pcs f = TPC.fetching)
    (hwait : ∀ u, u ≠ f → si.pcs u = TPC.waiting) :
    (Finset.univ.filter (fun u => s'.fetched u = true)).card = 1 ∧
    (∀ j, j ≤ i → ∀ sj, run (initC N cache orc now) (List.take j sch) = some sj →
      ∀ u, isDone (sj.pcs u) = false) := by
  have hseg : run si (List.drop i sch) = some s' := by
    have h1 := run_append (List.take i sch) (List.drop i sch) (initC N cache orc now)
    rw [List.take_append_drop, hrun, hpre] at h1
    simpa using h1.symm
  have hflag : FlagInv si :=
    run_inv (fun t a b hP hs => flagInv_step t a b hP hs) _ _ _
      (flagInv_init N cache orc now) hpre
  have hflags0 : ∀ u, si.fetched u = false := by
    intro u
    cases hfu : si.fetched u
    · rfl
    · exfalso
      have hpost := hflag u hfu
      by_cases huf : u = f
      · rw [huf, hfetch] at hpost
        cases hpost
      · rw [hwait u huf] at hpost
        cases hpost
  have hothers : ∀ u, u ≠ f → s'.fetched u = false := by
    intro u hu
    have hnf : noFetchPC (si.pcs u) = true := by rw [hwait u hu]; rfl
    obtain ⟨-, heq⟩ := noFetch_run (List.drop i sch) si s' u hseg hnf
    rw [heq]
    exact hflags0 u
  have hfet : s'.fetched f = true := by
    have hFI : FetcherInv f si := Or.inl ⟨hfetch, hflags0 f⟩
    rcases fetcherInv_run f (List.drop i sch) si s' hseg hFI with ⟨h1, h2⟩ | ⟨h1, h2⟩
    · exfalso
      have hd := hdone f
      rw [h1] at hd
      cases hd
    · exact h2
  constructor
  · have hset : (Finset.univ.filter (fun u => s'.fetched u = true)) = {f} := by
      apply Finset.ext
      intro u
      simp only [Finset.mem_filter, Finset.mem_univ, true_and, Finset.mem_singleton]
      constructor
      · intro hu
        by_contra hne
        rw [hothers u hne] at hu
        cases hu
      · intro hu
        rw [hu]
        exact hfet
    rw [hset]
    exact Finset.card_singleton f
  · intro j hj sj hj_run u
    have hsegj : run sj (List.drop j (List.take i sch)) = some si := by
      have h1 := run_append (List.take j (List.take i sch))
        (List.drop j (List.take i sch)) (initC N cache orc now)
      rw [List.take_append_drop, List.take_take, Nat.min_eq_left hj, hpre, hj_run] at h1
      simpa using h1.symm
    cases hdu : isDone (sj.pcs u)
    · rfl
    · exfalso
      have hsi := isDone_run _ sj si u hsegj hdu
      by_cases huf : u = f
      · rw [huf, hfetch] at hsi
        cases hsi
      · rw [hwait u huf] at hsi
        cases hsi

/-- C1 witnessed on the concrete two-task run: after six steps task 0 is
fetching and task 1 waiting; over the whole run exactly one fetch is
issued and no call completes at or before that prefix. -/
theorem c1_single_flight_witness :
    (Finset.univ.filter (fun u => exFinal.fetched u = true)).card = 1 ∧
    (∀ j, j ≤ 6 → ∀ sj,
      run (initC 2 exFresh [HttpOutcome.status 200 (some "X") [1, 2]] 0)
        (List.take j exSch) = some sj →
      ∀ u, isDone (sj.pcs u) = false) :=
  c1_single_flight 2 exFresh [HttpOutcome.status 200 (some "X") [1, 2]] 0 exSch exFinal
    6 0 exMid6 rfl (by decide) rfl (by decide) (by decide)

end Buienradar
